import Mathlib

/-!
Verification of the ajax-linter language-server core.

This file gives a shallow embedding, in Lean 4, of the parts of the
repository that the verified claims are about:

* the static route table `mockSwagger` (src/server/src/types/swagger.ts);
* the URL matcher `getMatchingSwaggerUrl` and the helpers `getNodeType`,
  `getDefaultValue`, `generateDataSnippet` (src/server/src/utils/utils.ts);
* the diagnostics engine, present twice in the repository:
  `AjaxFeature.provideDiagnostics` (src/server/src/features/ajaxFeature.ts)
  and `processAjaxConfigForDiagnostics` (src/server/src/handlers/diagnostics.ts);
* the completion engine `AjaxFeature.provideCompletionItems`
  (src/server/src/features/ajaxFeature.ts).

Modelling conventions:

* JavaScript strings are Lean `String`s; URL path segments are handled as
  `List Char` so that facts about splitting on a separator character are
  provable by structural induction (JavaScript `split('/')` on a one-character
  separator is exactly a split of the character list).
* TypeScript AST nodes are modelled by the inductive types `Expr` / `ObjProp` /
  `PropName` below, which keep exactly the information the engine reads:
  node kind, literal text, and source offsets (`getStart()` / `getEnd()`).
* `TextDocument` is modelled by its two conversion functions `positionAt` and
  `offsetAt` together with the round-trip law `offsetAt (positionAt o) = o`
  that every consistent LSP text document satisfies on valid offsets.
* Optional TypeScript values become `Option`; JavaScript string truthiness
  (`if (s)`) is `s` being present and nonempty.
* A schema `example` value is stored as its `JSON.stringify` rendering, which
  is the only way the code ever uses it.
* Literal brace characters inside Lean strings are written with the escapes
  `\x7b` and `\x7d`, and apostrophes with `\x27`; this is only a spelling of
  the same characters.
-/

namespace Ajax

/-- Model of an LSP `Position` (line / character). -/
structure Position where
  line : Nat
  character : Nat
deriving DecidableEq, Repr

/-- Model of an LSP `Range`; `stop` is the range's `end` field (`end` is a
Lean keyword). -/
structure LspRange where
  start : Position
  stop : Position
deriving DecidableEq, Repr

/-- Model of `DiagnosticSeverity` (only the two values the code uses). -/
inductive Severity where
  | error
  | warning
deriving DecidableEq, Repr

/-- Model of an LSP `Diagnostic` as the code constructs them. -/
structure Diagnostic where
  severity : Severity
  range : LspRange
  message : String
  source : String
deriving DecidableEq, Repr

/-- Model of `CompletionItemKind` (only the values the code uses). -/
inductive CIKind where
  | value
  | property
  | snippet
deriving DecidableEq, Repr

/-- Model of `InsertTextFormat` (only `Snippet` is ever set by the code). -/
inductive InsertFormat where
  | snippetFormat
deriving DecidableEq, Repr

/-- Model of an LSP `CompletionItem` with exactly the fields the code sets.
`textEdit` is a replace range together with the new text. -/
structure CompletionItem where
  label : String
  kind : CIKind
  insertText : Option String
  insertTextFormat : Option InsertFormat
  filterText : Option String
  detail : Option String
  textEdit : Option (LspRange × String)
deriving DecidableEq, Repr

/-- Model of an LSP `TextDocument`: the two offset/position conversions used
by the code, the text extraction used for the dot-trigger check, and the
round-trip law that holds for valid offsets of any real document. -/
structure TextDocument where
  positionAt : Nat → Position
  offsetAt : Position → Nat
  getTextInRange : Position → Position → String
  roundtrip : ∀ o : Nat, offsetAt (positionAt o) = o

/-- Model of a TypeScript property name: an `Identifier`, another literal name
(string or numeric literal, which still has a `.text`), or a computed name
(whose `.text` is `undefined`). Offsets are `getStart()` / `getEnd()`. -/
inductive PropName where
  | ident (text : String) (start stop : Nat)
  | litName (text : String) (start stop : Nat)
  | computedName (start stop : Nat)
deriving DecidableEq, Repr

mutual
/-- Model of the TypeScript expressions the engine distinguishes.
`stringLit`'s `text` is the unquoted contents; `numericLit`'s `text` is the
raw source text (`getText()`). Offsets are `getStart()` / `getEnd()`. -/
inductive Expr where
  | stringLit (text : String) (start stop : Nat)
  | numericLit (text : String) (start stop : Nat)
  | trueLit (start stop : Nat)
  | falseLit (start stop : Nat)
  | arrayLit (start stop : Nat)
  | objectLit (props : List ObjProp) (start stop : Nat)
  | otherExpr (start stop : Nat)
/-- Model of an object-literal member: a `PropertyAssignment` (simple
`key: value`), or anything else (shorthand, spread, method — rejected by
`ts.isPropertyAssignment`). -/
inductive ObjProp where
  | assign (name : PropName) (value : Expr)
  | nonAssign (start stop : Nat)
end

/-- Start offset of an expression (`getStart()`). -/
def exprStart : Expr → Nat
  | .stringLit _ s _ => s
  | .numericLit _ s _ => s
  | .trueLit s _ => s
  | .falseLit s _ => s
  | .arrayLit s _ => s
  | .objectLit _ s _ => s
  | .otherExpr s _ => s

/-- End offset of an expression (`getEnd()`). -/
def exprStop : Expr → Nat
  | .stringLit _ _ e => e
  | .numericLit _ _ e => e
  | .trueLit _ e => e
  | .falseLit _ e => e
  | .arrayLit _ e => e
  | .objectLit _ _ e => e
  | .otherExpr _ e => e

/-- Text of `(p.name as ts.Identifier).text`: the cast keeps whatever `.text`
the actual name node carries — identifiers and literal names have one,
computed names yield `undefined` (`none`). -/
def propNameTextQ : PropName → Option String
  | .ident t _ _ => some t
  | .litName t _ _ => some t
  | .computedName _ _ => none

/-- Model of `SwaggerSchema` (src/server/src/types/swagger.ts).
`properties` is the object's own enumerable entries in declaration order;
`example` is stored as its `JSON.stringify` rendering (the only use the code
makes of it). -/
inductive SwaggerSchema where
  | mk (type : String) (properties : Option (List (String × SwaggerSchema)))
       (items : Option SwaggerSchema) (required : Option (List String))
       (exampleVal : Option String) (description : Option String)

/-- Schema `type` field. -/
def SwaggerSchema.type : SwaggerSchema → String
  | .mk t _ _ _ _ _ => t

/-- Schema `properties` field. -/
def SwaggerSchema.properties : SwaggerSchema → Option (List (String × SwaggerSchema))
  | .mk _ p _ _ _ _ => p

/-- Schema `items` field. -/
def SwaggerSchema.items : SwaggerSchema → Option SwaggerSchema
  | .mk _ _ i _ _ _ => i

/-- Schema `required` field. -/
def SwaggerSchema.required : SwaggerSchema → Option (List String)
  | .mk _ _ _ r _ _ => r

/-- Schema `example` field (as its JSON rendering; `example` is a Lean
keyword, hence the name). -/
def SwaggerSchema.exampleVal : SwaggerSchema → Option String
  | .mk _ _ _ _ e _ => e

/-- Model of `SwaggerParameter`; `loc` is the `in` field (`in` is a Lean
keyword). -/
structure SwaggerParameter where
  loc : String
  name : String
  required : Option Bool
  schema : Option SwaggerSchema
  description : Option String

/-- Model of `SwaggerMethod`. -/
structure SwaggerMethod where
  parameters : Option (List SwaggerParameter)
  description : Option String

/-- Model of a `SwaggerPath` object: its own enumerable keys, in declaration
order, each an HTTP verb mapped to a method descriptor. -/
abbrev SwaggerPath := List (String × SwaggerMethod)

/-- The static route table `mockSwagger` (src/server/src/types/swagger.ts),
transcribed entry by entry; key order is the object-literal declaration
order, which is the `for...in` iteration order for these string keys. -/
def mockSwagger : List (String × SwaggerPath) := [
  ("/api/users", [
    ("get",
      { parameters := some [
            { loc := "query", name := "id", required := none,
              schema := some (.mk "number" none none none (some "1") none),
              description := some "User ID" }],
        description := some "Get a list of users" }),
    ("post",
      { parameters := some [
            { loc := "body", name := "user", required := none,
              schema := some (.mk "object"
                (some [
                  ("username", .mk "string" none none none (some "\"john_doe\"") (some "Unique username")),
                  ("email", .mk "string" none none none (some "\"john@example.com\"") (some "User email")),
                  ("age", .mk "integer" none none none (some "30") (some "User age")),
                  ("optionalUserInfo", .mk "string" none none none (some "\"Some additional info\"") (some "Optional user information"))])
                none (some ["username", "email"]) none (some "User object to be created")),
              description := some "User data" }],
        description := some "Create a new user" })]),
  ("/api/users/\x7buserId\x7d", [
    ("get",
      { parameters := some [
            { loc := "path", name := "userId", required := some true,
              schema := some (.mk "integer" none none none (some "1") none),
              description := some "The ID of the user" }],
        description := some "Get user by ID" }),
    ("put",
      { parameters := some [
            { loc := "path", name := "userId", required := some true,
              schema := some (.mk "integer" none none none (some "1") none),
              description := some "The ID of the user to update" },
            { loc := "body", name := "user", required := none,
              schema := some (.mk "object"
                (some [
                  ("username", .mk "string" none none none (some "\"john_doe\"") (some "Unique username")),
                  ("email", .mk "string" none none none (some "\"john@example.com\"") (some "User email")),
                  ("age", .mk "integer" none none none (some "30") (some "User age")),
                  ("optionalUpdateField", .mk "string" none none none (some "\"Optional field to update\"") none)])
                none (some []) none (some "Updated user object")),
              description := some "Updated user data" }],
        description := some "Update a user by ID" }),
    ("delete",
      { parameters := some [
            { loc := "path", name := "userId", required := some true,
              schema := some (.mk "integer" none none none (some "1") none),
              description := some "The ID of the user to delete" }],
        description := some "Delete a user by ID" })]),
  ("/api/users/\x7buserId\x7d/stats", [
    ("get",
      { parameters := some [
            { loc := "path", name := "userId", required := some true,
              schema := some (.mk "integer" none none none (some "1") none),
              description := some "The ID of the user" }],
        description := some "Get user statistics by ID" })]),
  ("/api/products", [
    ("get",
      { parameters := some [
            { loc := "query", name := "search", required := none,
              schema := some (.mk "string" none none none (some "\"product name\"") none),
              description := some "Search term for products" }],
        description := some "Get a list of products" }),
    ("post",
      { parameters := some [
            { loc := "body", name := "product", required := none,
              schema := some (.mk "object"
                (some [
                  ("name", .mk "string" none none none (some "\"New Product\"") (some "Product name")),
                  ("price", .mk "number" none none none (some "9.99") (some "Product price")),
                  ("category", .mk "string" none none none (some "\"Electronics\"") (some "Optional product category"))])
                none (some ["name", "price"]) none (some "Product object to be created")),
              description := some "Product data" }],
        description := some "Create a new product" })]),
  ("/api/products/\x7bproductId\x7d", [
    ("get",
      { parameters := some [
            { loc := "path", name := "productId", required := some true,
              schema := some (.mk "integer" none none none (some "1") none),
              description := some "The ID of the product" }],
        description := some "Get product by ID" }),
    ("put",
      { parameters := some [
            { loc := "path", name := "productId", required := some true,
              schema := some (.mk "integer" none none none (some "1") none),
              description := some "The ID of the product to update" },
            { loc := "body", name := "product", required := none,
              schema := some (.mk "object"
                (some [
                  ("name", .mk "string" none none none (some "\"Updated Product\"") (some "Updated product name")),
                  ("price", .mk "number" none none none (some "19.99") (some "Updated product price")),
                  ("available", .mk "boolean" none none none (some "true") (some "Optional availability status"))])
                none (some []) none (some "Updated product object")),
              description := some "Updated product data" }],
        description := some "Update a product by ID" }),
    ("delete",
      { parameters := some [
            { loc := "path", name := "productId", required := some true,
              schema := some (.mk "integer" none none none (some "1") none),
              description := some "The ID of the product to delete" }],
        description := some "Delete a product by ID" })]),
  ("/api/products/\x7bproductId\x7d/reviews", [
    ("get",
      { parameters := some [
            { loc := "path", name := "productId", required := some true,
              schema := some (.mk "integer" none none none (some "1") none),
              description := some "The ID of the product" }],
        description := some "Get reviews for a product" }),
    ("post",
      { parameters := some [
            { loc := "path", name := "productId", required := some true,
              schema := some (.mk "integer" none none none (some "1") none),
              description := some "The ID of the product" },
            { loc := "body", name := "review", required := none,
              schema := some (.mk "object"
                (some [
                  ("author", .mk "string" none none none (some "\"Anonymous\"") (some "Author of the review")),
                  ("rating", .mk "integer" none none none (some "5") (some "Rating from 1 to 5")),
                  ("comment", .mk "string" none none none (some "\"Great product!\"") (some "Review comment")),
                  ("imageUrls", .mk "array" none
                    (some (.mk "string" none none none (some "\"http://example.com/image1.jpg\"") none))
                    none none (some "Optional image URLs for the review"))])
                none (some ["author", "rating", "comment"]) none (some "Review object to be submitted")),
              description := some "Review data" }],
        description := some "Submit a review for a product" })]),
  ("/api/orders", [
    ("get",
      { parameters := some [
            { loc := "query", name := "status", required := none,
              schema := some (.mk "string" none none none (some "\"pending\"") none),
              description := some "Filter orders by status" }],
        description := some "Get a list of orders" }),
    ("post",
      { parameters := some [
            { loc := "body", name := "order", required := none,
              schema := some (.mk "object"
                (some [
                  ("items", .mk "array" none
                    (some (.mk "object"
                      (some [
                        ("productId", .mk "integer" none none none (some "1") (some "Product ID")),
                        ("quantity", .mk "integer" none none none (some "1") (some "Quantity"))])
                      none (some ["productId", "quantity"]) none none))
                    none none (some "List of items in the order")),
                  ("customerInfo", .mk "object"
                    (some [
                      ("name", .mk "string" none none none (some "\"John Doe\"") (some "Customer name")),
                      ("address", .mk "string" none none none (some "\"123 Main St\"") (some "Customer address")),
                      ("phone", .mk "string" none none none (some "\"123-456-7890\"") (some "Optional customer phone number"))])
                    none (some ["name", "address"]) none (some "Customer information"))])
                none (some ["items", "customerInfo"]) none (some "Order object to be created")),
              description := some "Order data" }],
        description := some "Create a new order" })]),
  ("/api/orders/\x7borderId\x7d", [
    ("get",
      { parameters := some [
            { loc := "path", name := "orderId", required := some true,
              schema := some (.mk "integer" none none none (some "123") none),
              description := some "The ID of the order" }],
        description := some "Get order by ID" }),
    ("delete",
      { parameters := some [
            { loc := "path", name := "orderId", required := some true,
              schema := some (.mk "integer" none none none (some "123") none),
              description := some "The ID of the order to delete" }],
        description := some "Delete an order by ID" })]),
  ("/api/profile", [
    ("get",
      { parameters := none,
        description := some "Get the current user profile" }),
    ("put",
      { parameters := some [
            { loc := "body", name := "profile", required := none,
              schema := some (.mk "object"
                (some [
                  ("firstName", .mk "string" none none none (some "\"John\"") (some "User first name")),
                  ("lastName", .mk "string" none none none (some "\"Doe\"") (some "User last name")),
                  ("phone", .mk "string" none none none (some "\"123-456-7890\"") (some "User phone number")),
                  ("website", .mk "string" none none none (some "\"http://example.com\"") (some "Optional website"))])
                none (some ["firstName", "lastName"]) none (some "Updated user profile data")),
              description := some "User profile data" }],
        description := some "Update the current user profile" })]),
  ("/api/admin/dashboard", [
    ("get",
      { parameters := none,
        description := some "Get data for the admin dashboard (requires admin privileges)" })])]

/-- Keys of the route table, in iteration order (`Object.keys(mockSwagger)` /
`for (const swaggerUrl in mockSwagger)`). -/
def mockSwaggerUrls : List String := mockSwagger.map Prod.fst

/-! ## URL matcher (src/server/src/utils/utils.ts, `getMatchingSwaggerUrl`) -/

/-- JavaScript `s.split('/')` on the character list of `s`: splits at every
`'/'`, keeping empty pieces (so the result is never empty). -/
def splitSeg : List Char → List (List Char)
  | [] => [[]]
  | c :: cs =>
    if c = '/' then [] :: splitSeg cs
    else
      match splitSeg cs with
      | s :: rest => (c :: s) :: rest
      | [] => [[c]]

/-- Segments of a URL as the code computes them:
`url.split('/').filter(part => part !== '')`. -/
def urlSegments (u : String) : List (List Char) :=
  (splitSeg u.data).filter (fun part => ! part.isEmpty)

/-- The inner segment-comparison loop of `getMatchingSwaggerUrl`: a template
segment wrapped in braces matches when the corresponding literal segment is
nonempty, any other segment must be equal; mismatched lengths fail. -/
def matchParts : List (List Char) → List (List Char) → Bool
  | [], [] => true
  | sp :: sps, cp :: cps =>
    (if sp.head? = some '\x7b' ∧ sp.getLast? = some '\x7d' then ! cp.isEmpty
     else sp = cp)
      && matchParts sps cps
  | _, _ => false

/-- Embedding of `getMatchingSwaggerUrl`: split the literal URL into nonempty
segments, then return the first route-table key whose segments have the same
count and match position by position (`\x7bparam\x7d` template segments match any
nonempty literal segment). -/
def getMatchingSwaggerUrl (currentUrl : String) : Option String :=
  let currentParts := urlSegments currentUrl
  mockSwaggerUrls.find? (fun swaggerUrl =>
    let swaggerParts := urlSegments swaggerUrl
    swaggerParts.length == currentParts.length && matchParts swaggerParts currentParts)

/-! ## Literal type inference and snippet generation
(src/server/src/utils/utils.ts) -/

/-- Embedding of `getNodeType`: shallow type inference for a literal
expression; a numeric literal whose raw text contains a decimal point is a
`number`, otherwise an `integer`. -/
def getNodeType : Expr → Option String
  | .stringLit _ _ _ => some "string"
  | .numericLit text _ _ => some (if text.data.contains '.' then "number" else "integer")
  | .trueLit _ _ => some "boolean"
  | .falseLit _ _ => some "boolean"
  | .arrayLit _ _ => some "array"
  | .objectLit _ _ _ => some "object"
  | .otherExpr _ _ => none

/-- Embedding of `getDefaultValue`: default literal text for a schema type. -/
def getDefaultValue : Option String → String
  | some "string" => "\"\""
  | some "number" => "0"
  | some "integer" => "0"
  | some "boolean" => "true"
  | some "array" => "[]"
  | some "object" => "\x7b\x7d"
  | _ => "null"

/-- JavaScript `s.repeat(n)`. -/
def strRepeat (s : String) (n : Nat) : String :=
  String.join (List.replicate n s)

/-- JavaScript `s.toLowerCase()` (over the character list, so that it
evaluates inside the kernel). -/
def strToLower (s : String) : String :=
  String.mk (s.data.map Char.toLower)

/-- JavaScript `s.toUpperCase()` (over the character list). -/
def strToUpper (s : String) : String :=
  String.mk (s.data.map Char.toUpper)

/-- JavaScript `snippet.replace(/,\n$/, '\n')`: drop a trailing comma that
directly precedes a final newline (phrased on the reversed character list). -/
def stripTrailingComma (s : String) : String :=
  match s.data.reverse with
  | '\n' :: ',' :: rest => String.mk (('\n' :: rest).reverse)
  | _ => s

/-- Advance of the placeholder counter `i` across one property of the object
loop of `generateDataSnippet`: nested objects and arrays render no numbered
placeholder of their own at this level, every other property consumes one. -/
def propCounterStep : SwaggerSchema → Nat → Nat
  | .mk "object" (some _) _ _ _ _, i => i
  | .mk "array" _ (some _) _ _ _, i => i
  | _, i => i + 1

/-- Value of the placeholder counter after the object loop has processed a
prefix of properties, starting from `i`. -/
def counterAfter (ps : List (String × SwaggerSchema)) (i : Nat) : Nat :=
  ps.foldl (fun j kp => propCounterStep kp.2 j) i

mutual
/-- Embedding of `generateDataSnippet`: renders a request-body snippet from a
schema. The object branch delegates the `for (const key in schema.properties)`
loop to `genProps`; the array branch renders one item; any other schema
renders its example or the type's default value. -/
def generateDataSnippet : SwaggerSchema → Nat → Bool → String
  | .mk "object" (some ps) _ req _ _, level, includeBraces =>
    let indent := strRepeat "  " level
    let body := (if includeBraces then "\x7b\n" else "") ++ genProps ps req indent level 1
    stripTrailingComma body
      ++ (if includeBraces then "\n" ++ strRepeat "  " (level - 1) ++ "\x7d" else "")
  | .mk "array" _ (some item) _ _ _, level, includeBraces =>
    let itemLevel := if includeBraces then level + 1 else level
    (if includeBraces then "[\n" else "")
      ++ strRepeat "  " itemLevel ++ generateDataSnippet item (itemLevel + 1) false
      ++ "\n" ++ strRepeat "  " (if includeBraces then level else level - 1) ++ "]"
  | .mk ty _ _ _ ex _, _, _ => ex.getD (getDefaultValue (some ty))
termination_by s _ _ => (sizeOf s, 0)

/-- Rendering of one property value inside the object-branch loop of
`generateDataSnippet`: a nested object recurses with the default braces, an
array renders one bracketed item from its item schema, and any other property
renders a numbered `$\x7bi:default\x7d` placeholder from the example or the
type default. -/
def propEntryValue : SwaggerSchema → String → Nat → Nat → String
  | .mk "object" (some pps) pit prq pex pd, _, level, _ =>
    generateDataSnippet (.mk "object" (some pps) pit prq pex pd) (level + 1) true
  | .mk "array" _ (some item) _ _ _, indent, level, _ =>
    "[\n" ++ indent ++ "    " ++ generateDataSnippet item (level + 2) false
      ++ "\n" ++ indent ++ "  ]"
  | .mk ty _ _ _ ex _, _, _, i =>
    "$\x7b" ++ toString i ++ ":" ++ ex.getD (getDefaultValue (some ty)) ++ "\x7d"
termination_by p _ _ _ => (sizeOf p, 1)

/-- The property loop of `generateDataSnippet`'s object branch: one
`indent + "key": value` entry per property, a `?` marker after the value when
the key is not in the `required` list, and a `,\n` after every entry (the
caller strips the final one). The placeholder counter `i` (`i++` in the
source) advances only on leaf placeholders, as `propCounterStep` records. -/
def genProps : List (String × SwaggerSchema) → Option (List String) → String → Nat → Nat → String
  | [], _, _, _, _ => ""
  | (key, prop) :: rest, req, indent, level, i =>
    let isRequired := (req.getD []).contains key
    indent ++ "  \"" ++ key ++ "\": " ++ propEntryValue prop indent level i
      ++ (if isRequired then "" else "?") ++ ",\n"
      ++ genProps rest req indent level (propCounterStep prop i)
termination_by l _ _ _ _ => (sizeOf l, 2)
end

/-! ## Diagnostics engine
(src/server/src/handlers/diagnostics.ts, `processAjaxConfigForDiagnostics`) -/

/-- Range from two source offsets via `textDocument.positionAt`. -/
def rangeAt (doc : TextDocument) (s e : Nat) : LspRange :=
  { start := doc.positionAt s, stop := doc.positionAt e }

/-- The duplicate-property Error pushed by the property scan. -/
def dupDiag (doc : TextDocument) (propName : String) (ns ne : Nat) : Diagnostic :=
  { severity := .error, range := rangeAt doc ns ne,
    message := "Дублирующееся свойство: \x27" ++ propName ++ "\x27",
    source := "swagger-lsp" }

/-- The unknown-URL Error, anchored inside the quotes of the URL literal. -/
def unknownUrlDiag (doc : TextDocument) (currentUrl : String) (us ue : Nat) : Diagnostic :=
  { severity := .error, range := rangeAt doc (us + 1) (ue - 1),
    message := "Неизвестный URL: " ++ currentUrl,
    source := "swagger-lsp" }

/-- The unsupported-HTTP-method Error, anchored inside the quotes of the verb
literal. -/
def badMethodDiag (doc : TextDocument) (type currentUrl : String) (ts te : Nat) : Diagnostic :=
  { severity := .error, range := rangeAt doc (ts + 1) (te - 1),
    message := "Недопустимый HTTP метод \x27" ++ strToUpper type ++ "\x27 для URL: " ++ currentUrl,
    source := "swagger-lsp" }

/-- The missing-required-field Error, anchored to the whole `data` node. -/
def missingFieldDiag (doc : TextDocument) (requiredProp : String) (ds de : Nat) : Diagnostic :=
  { severity := .error, range := rangeAt doc ds de,
    message := "Отсутствует обязательное поле \x27" ++ requiredProp ++ "\x27 в data",
    source := "swagger-lsp" }

/-- The unknown-field Error, anchored to the data property's key. -/
def unknownFieldDiag (doc : TextDocument) (propName : String) (ns ne : Nat) : Diagnostic :=
  { severity := .error, range := rangeAt doc ns ne,
    message := "Неизвестное поле: \x27" ++ propName ++ "\x27",
    source := "swagger-lsp" }

/-- The type-mismatch Warning, anchored to the data property's value. -/
def mismatchDiag (doc : TextDocument) (expected got propName : String) (vs ve : Nat) : Diagnostic :=
  { severity := .warning, range := rangeAt doc vs ve,
    message := "Ожидается тип \x27" ++ expected ++ "\x27 для поля \x27" ++ propName
      ++ "\x27, получен \x27" ++ got ++ "\x27",
    source := "swagger-lsp" }

/-- State of the property scan: the captured `urlNode` / `typeNode` /
`dataNode` (as literal text or property list, with `getStart()` / `getEnd()`),
the `encounteredProps` set, and the diagnostics pushed so far.
`encounteredProps` is a JS `Set`; it is modelled as a list to which names are
appended — only membership is ever queried, so duplicates are harmless. -/
structure ScanState where
  urlLit : Option (String × Nat × Nat)
  typeLit : Option (String × Nat × Nat)
  dataLit : Option (List ObjProp × Nat × Nat)
  encountered : List String
  diags : List Diagnostic

/-- Initial scan state. -/
def initScan : ScanState :=
  { urlLit := none, typeLit := none, dataLit := none, encountered := [], diags := [] }

/-- One iteration of the property scan: on a simple identifier-keyed
assignment, push a duplicate Error if the key was already encountered, record
the key, and capture the value into `urlNode` / `typeNode` / `dataNode` when
the key and value shape match (overwriting any earlier capture). -/
def scanStep (doc : TextDocument) (st : ScanState) (p : ObjProp) : ScanState :=
  match p with
  | .assign (.ident propName ns ne) v =>
    let st1 :=
      { st with
        diags := st.diags
          ++ (if st.encountered.contains propName then [dupDiag doc propName ns ne] else []),
        encountered := st.encountered ++ [propName] }
    match v with
    | .stringLit t s e =>
      if propName = "url" then { st1 with urlLit := some (t, s, e) }
      else if propName = "type" ∨ propName = "method" then { st1 with typeLit := some (t, s, e) }
      else st1
    | .objectLit dprops s e =>
      if propName = "data" then { st1 with dataLit := some (dprops, s, e) }
      else st1
    | _ => st1
  | _ => st

/-- The whole property scan (`for (const prop of configObject.properties)`). -/
def scanProps (doc : TextDocument) (props : List ObjProp) (st : ScanState) : ScanState :=
  props.foldl (scanStep doc) st

/-- Lookup `mockSwagger[url]?.[verb]`. -/
def pathLookup (url verb : String) : Option SwaggerMethod :=
  (List.lookup url mockSwagger).bind (List.lookup verb)

/-- Lookup `method.parameters?.find(param => param.in === 'body')`. -/
def bodyParamOf (meth : SwaggerMethod) : Option SwaggerParameter :=
  match meth.parameters with
  | none => none
  | some ps => ps.find? (fun param => param.loc == "body")

/-- Names of the `data` object's property assignments, as the code computes
them: `dataNode.properties.filter(ts.isPropertyAssignment).map(p =>
(p.name as ts.Identifier).text)` — the cast yields the name's `.text`, which
is `undefined` (`none`) for computed names. -/
def dataPropTexts (dprops : List ObjProp) : List (Option String) :=
  dprops.filterMap (fun p =>
    match p with
    | .assign nm _ => some (propNameTextQ nm)
    | _ => none)

/-- Per-data-property check of the second `data` loop: unknown field Error,
or shallow type check against the schema (Warning on mismatch, with the
`integer`-accepts-`number` exception). Properties that are not simple
identifier-keyed assignments are skipped. -/
def checkFieldDiags (doc : TextDocument) (schemaProps : List (String × SwaggerSchema)) :
    ObjProp → List Diagnostic
  | .assign (.ident propName ns ne) v =>
    let allowedProps := schemaProps.map Prod.fst
    if ¬ allowedProps.contains propName then [unknownFieldDiag doc propName ns ne]
    else
      match List.lookup propName schemaProps with
      | none => []
      | some schemaProp =>
        match getNodeType v with
        | none => []
        | some propType =>
          if schemaProp.type ≠ "" ∧ schemaProp.type ≠ propType
              ∧ ¬ (schemaProp.type = "integer" ∧ propType = "number") then
            [mismatchDiag doc schemaProp.type propType propName (exprStart v) (exprStop v)]
          else []
  | _ => []

/-- The body validation run when the verb is `post`/`put`/`patch` and a
`data` object literal is present: missing-required-field Errors (anchored to
the whole `data` node) followed by the per-field checks. Nothing is emitted
when the verb has no `body` parameter with a schema with properties. -/
def dataDiags (doc : TextDocument) (meth : SwaggerMethod)
    (dprops : List ObjProp) (ds de : Nat) : List Diagnostic :=
  match bodyParamOf meth with
  | none => []
  | some bodyParam =>
    match bodyParam.schema with
    | none => []
    | some sch =>
      match sch.properties with
      | none => []
      | some schemaProps =>
        let requiredProps := sch.required.getD []
        let dataProperties := dataPropTexts dprops
        (requiredProps.flatMap (fun requiredProp =>
          if ¬ dataProperties.contains (some requiredProp) then
            [missingFieldDiag doc requiredProp ds de]
          else []))
        ++ dprops.flatMap (checkFieldDiags doc schemaProps)

/-- The URL/verb/data validation performed after the property scan. -/
def validateConfig (doc : TextDocument) (st : ScanState) : List Diagnostic :=
  match st.urlLit with
  | none => []
  | some (currentUrl, us, ue) =>
    match getMatchingSwaggerUrl currentUrl with
    | none => [unknownUrlDiag doc currentUrl us ue]
    | some swaggerUrlMatch =>
      match st.typeLit with
      | none => []
      | some (tyText, ts, te) =>
        let type := strToLower tyText
        match pathLookup swaggerUrlMatch type with
        | none => [badMethodDiag doc type currentUrl ts te]
        | some meth =>
          if ["post", "put", "patch"].contains type then
            match st.dataLit with
            | some (dprops, ds, de) => dataDiags doc meth dprops ds de
            | none => []
          else []

/-- Embedding of `processAjaxConfigForDiagnostics`
(src/server/src/handlers/diagnostics.ts): the diagnostics appended for one
configuration object, in emission order. -/
def processAjaxConfigForDiagnostics (configProps : List ObjProp) (doc : TextDocument) :
    List Diagnostic :=
  let st := scanProps doc configProps initScan
  st.diags ++ validateConfig doc st

/-! ## Diagnostics engine, second copy
(src/server/src/features/ajaxFeature.ts, `AjaxFeature.provideDiagnostics`).

The repository carries the same diagnostics logic a second time as a method
of `AjaxFeature`; it is transcribed here independently, from that file, with
`feature`-prefixed names. The severities, ranges, message texts and `source`
tags it pushes are spelled by the same literal constructors (`dupDiag`,
`unknownUrlDiag`, ...), because both files construct them with the same
literal text. -/

/-- One iteration of the property scan of `AjaxFeature.provideDiagnostics`
(ajaxFeature.ts lines 280-307). -/
def featureScanStep (doc : TextDocument) (st : ScanState) (p : ObjProp) : ScanState :=
  match p with
  | .assign (.ident propName ns ne) v =>
    let st1 :=
      { st with
        diags := st.diags
          ++ (if st.encountered.contains propName then [dupDiag doc propName ns ne] else []),
        encountered := st.encountered ++ [propName] }
    match v with
    | .stringLit t s e =>
      if propName = "url" then { st1 with urlLit := some (t, s, e) }
      else if propName = "type" ∨ propName = "method" then { st1 with typeLit := some (t, s, e) }
      else st1
    | .objectLit dprops s e =>
      if propName = "data" then { st1 with dataLit := some (dprops, s, e) }
      else st1
    | _ => st1
  | _ => st

/-- The property scan of `AjaxFeature.provideDiagnostics`. -/
def featureScanProps (doc : TextDocument) (props : List ObjProp) (st : ScanState) : ScanState :=
  props.foldl (featureScanStep doc) st

/-- Lookup `mockSwagger[url]?.[verb]` as written in ajaxFeature.ts. -/
def featurePathLookup (url verb : String) : Option SwaggerMethod :=
  (List.lookup url mockSwagger).bind (List.lookup verb)

/-- Lookup of the `body` parameter as written in ajaxFeature.ts. -/
def featureBodyParamOf (meth : SwaggerMethod) : Option SwaggerParameter :=
  match meth.parameters with
  | none => none
  | some ps => ps.find? (fun param => param.loc == "body")

/-- Data property names as computed in ajaxFeature.ts line 346. -/
def featureDataPropTexts (dprops : List ObjProp) : List (Option String) :=
  dprops.filterMap (fun p =>
    match p with
    | .assign nm _ => some (propNameTextQ nm)
    | _ => none)

/-- Per-data-property check of ajaxFeature.ts lines 365-398. -/
def featureCheckFieldDiags (doc : TextDocument) (schemaProps : List (String × SwaggerSchema)) :
    ObjProp → List Diagnostic
  | .assign (.ident propName ns ne) v =>
    let allowedProps := schemaProps.map Prod.fst
    if ¬ allowedProps.contains propName then [unknownFieldDiag doc propName ns ne]
    else
      match List.lookup propName schemaProps with
      | none => []
      | some schemaProp =>
        match getNodeType v with
        | none => []
        | some propType =>
          if schemaProp.type ≠ "" ∧ schemaProp.type ≠ propType
              ∧ ¬ (schemaProp.type = "integer" ∧ propType = "number") then
            [mismatchDiag doc schemaProp.type propType propName (exprStart v) (exprStop v)]
          else []
  | _ => []

/-- Body validation of ajaxFeature.ts lines 338-400. -/
def featureDataDiags (doc : TextDocument) (meth : SwaggerMethod)
    (dprops : List ObjProp) (ds de : Nat) : List Diagnostic :=
  match featureBodyParamOf meth with
  | none => []
  | some bodyParam =>
    match bodyParam.schema with
    | none => []
    | some sch =>
      match sch.properties with
      | none => []
      | some schemaProps =>
        let requiredProps := sch.required.getD []
        let dataProperties := featureDataPropTexts dprops
        (requiredProps.flatMap (fun requiredProp =>
          if ¬ dataProperties.contains (some requiredProp) then
            [missingFieldDiag doc requiredProp ds de]
          else []))
        ++ dprops.flatMap (featureCheckFieldDiags doc schemaProps)

/-- URL/verb/data validation of ajaxFeature.ts lines 310-403. -/
def featureValidateConfig (doc : TextDocument) (st : ScanState) : List Diagnostic :=
  match st.urlLit with
  | none => []
  | some (currentUrl, us, ue) =>
    match getMatchingSwaggerUrl currentUrl with
    | none => [unknownUrlDiag doc currentUrl us ue]
    | some swaggerUrlMatch =>
      match st.typeLit with
      | none => []
      | some (tyText, ts, te) =>
        let type := strToLower tyText
        match featurePathLookup swaggerUrlMatch type with
        | none => [badMethodDiag doc type currentUrl ts te]
        | some meth =>
          if ["post", "put", "patch"].contains type then
            match st.dataLit with
            | some (dprops, ds, de) => featureDataDiags doc meth dprops ds de
            | none => []
          else []

/-- Embedding of `AjaxFeature.provideDiagnostics`
(src/server/src/features/ajaxFeature.ts): the diagnostics appended for the
call's configuration object, in emission order. -/
def ajaxProvideDiagnostics (configProps : List ObjProp) (doc : TextDocument) :
    List Diagnostic :=
  let st := featureScanProps doc configProps initScan
  st.diags ++ featureValidateConfig doc st

/-! ## Completion engine
(src/server/src/features/ajaxFeature.ts, `AjaxFeature.provideCompletionItems`) -/

/-- JavaScript truthiness of an optional string: present and nonempty. -/
def truthyStr : Option String → Bool
  | some s => s != ""
  | none => false

/-- The first scan of `provideCompletionItems` (ajaxFeature.ts lines 79-87):
capture `currentUrl` from a literal `url` and `currentType` (lower-cased)
from a literal `type`/`method`, later occurrences overwriting earlier ones. -/
def scanUrlType (props : List ObjProp) : Option String × Option String :=
  props.foldl (fun acc p =>
    match p with
    | .assign (.ident nm _ _) (.stringLit t _ _) =>
      if nm = "url" then (some t, acc.2)
      else if nm = "type" ∨ nm = "method" then (acc.1, some (strToLower t))
      else acc
    | _ => acc) (none, none)

/-- URL-value completion item (ajaxFeature.ts lines 103-108): label, insert
text and filter text are the route template verbatim; plain text, no snippet
format. -/
def mkUrlItem (url : String) : CompletionItem :=
  { label := url, kind := .value, insertText := some url,
    insertTextFormat := none, filterText := some url,
    detail := none, textEdit := none }

/-- Verb-value completion item (ajaxFeature.ts lines 121-126). -/
def mkVerbItem (method : String) : CompletionItem :=
  { label := method, kind := .value, insertText := some method,
    insertTextFormat := none, filterText := some method,
    detail := none, textEdit := none }

/-- The verb-collection loop (ajaxFeature.ts lines 115-119): every key of the
matched template's path object except `description`, upper-cased, skipping
values already collected. -/
def availableMethodsFor (methods : SwaggerPath) : List String :=
  methods.foldl (fun availableMethods kv =>
    if kv.1 ≠ "description" ∧ ¬ availableMethods.contains (strToUpper kv.1) then
      availableMethods ++ [strToUpper kv.1]
    else availableMethods) []

/-- Verbs offered for the result of the URL matcher (ajaxFeature.ts lines
111-120): empty when there is no match (`for...in` over `undefined` iterates
zero times). -/
def availableMethodsOf : Option String → List String
  | some m =>
    match List.lookup m mockSwagger with
    | some methods => availableMethodsFor methods
    | none => []
  | none => []

/-- One body-field completion item of the `data` branch (ajaxFeature.ts lines
147-195): snippet insert text from the field's schema, a textEdit replacing a
`.` trigger character when one directly precedes the cursor. -/
def dataCompletionItem (doc : TextDocument) (pos : Position)
    (requiredList : Option (List String)) (pName : String) (pSch : SwaggerSchema) :
    CompletionItem :=
  let isRequired := (requiredList.getD []).contains pName
  let insertTextForProp :=
    match pSch with
    | .mk "object" (some pps) pit prq pex pd =>
      "\"" ++ pName ++ "\": " ++ generateDataSnippet (.mk "object" (some pps) pit prq pex pd) 2 true
    | .mk "array" _ (some item) _ _ _ =>
      "\"" ++ pName ++ "\": [\n\t\t$\x7b1:" ++ getDefaultValue (some item.type) ++ "\x7d\n\t]"
    | .mk ty _ _ _ ex _ =>
      "\"" ++ pName ++ "\": $\x7b1:" ++ ex.getD (getDefaultValue (some ty)) ++ "\x7d"
  let detailForProp :=
    match pSch with
    | .mk "object" (some _) _ _ _ _ => "object"
    | .mk "array" _ (some _) _ _ _ => "array"
    | .mk ty _ _ _ _ _ =>
      ty ++ (if isRequired then " (обязательное)" else " (необязательное)")
  let posBefore : Position := { line := pos.line, character := pos.character - 1 }
  let charBefore := doc.getTextInRange posBefore pos
  { label := pName, kind := .property, insertText := some insertTextForProp,
    insertTextFormat := some .snippetFormat, detail := some detailForProp,
    filterText := none,
    textEdit :=
      if charBefore = "." then some ({ start := posBefore, stop := pos }, insertTextForProp)
      else none }

/-- One iteration of the property loop of `provideCompletionItems`
(ajaxFeature.ts lines 90-206): `some items` models an early `return`, `none`
models falling through to the next property (and, after the last property, to
the property-name rule). -/
def stepCompletion (doc : TextDocument) (pos : Position) (offset : Nat)
    (currentUrl currentType : Option String) : ObjProp → Option (List CompletionItem)
  | .assign (.ident propName _ ne) v =>
    match v with
    | .stringLit _ vs ve =>
      let valueStart := doc.offsetAt (doc.positionAt vs)
      let valueEnd := doc.offsetAt (doc.positionAt ve)
      if valueStart < offset ∧ offset ≤ valueEnd then
        if propName = "url" then
          some (mockSwaggerUrls.map mkUrlItem)
        else if propName = "type" ∨ propName = "method" then
          if truthyStr currentUrl then
            some ((availableMethodsOf (getMatchingSwaggerUrl (currentUrl.getD ""))).map mkVerbItem)
          else none
        else none
      else none
    | _ =>
      if propName = "data" then
        let afterColonOffset := doc.offsetAt (doc.positionAt ne) + 1
        let propEndOffset := doc.offsetAt (doc.positionAt (exprStop v))
        if afterColonOffset ≤ offset ∧ offset ≤ propEndOffset + 1 then
          if truthyStr currentUrl ∧ truthyStr currentType
              ∧ ["post", "put", "patch"].contains (currentType.getD "") then
            match getMatchingSwaggerUrl (currentUrl.getD "") with
            | some swaggerUrlMatch =>
              match featurePathLookup swaggerUrlMatch (currentType.getD "") with
              | some meth =>
                match featureBodyParamOf meth with
                | some bodyParam =>
                  match bodyParam.schema with
                  | some sch =>
                    match sch.properties with
                    | some schemaProps =>
                      some (schemaProps.map (fun kv =>
                        dataCompletionItem doc pos sch.required kv.1 kv.2))
                    | none => none
                  | none => none
                | none => none
              | none => none
            | none => none
          else none
        else none
      else none
  | _ => none

/-- The property-name completion rule (ajaxFeature.ts lines 210-255): one
snippet item per recognized configuration key not already present among the
names of the property assignments. -/
def propNameCompletions (props : List ObjProp) : List CompletionItem :=
  let existingProps := props.filterMap (fun p =>
    match p with
    | .assign nm _ => some (propNameTextQ nm)
    | _ => none)
  let potentialProps := ["url", "type", "method", "data", "success", "error", "complete"]
  (potentialProps.filter (fun prop => ¬ existingProps.contains (some prop))).map (fun prop =>
    if prop = "url" then
      { label := prop, kind := .snippet, insertText := some (prop ++ ": \"$\x7b1\x7d\""),
        insertTextFormat := some .snippetFormat, detail := some "URL запроса",
        filterText := none, textEdit := none }
    else if prop = "type" ∨ prop = "method" then
      { label := prop, kind := .snippet, insertText := some (prop ++ ": \"$\x7b1\x7d\""),
        insertTextFormat := some .snippetFormat, detail := some "HTTP метод",
        filterText := none, textEdit := none }
    else if prop = "data" then
      { label := prop, kind := .snippet,
        insertText := some (prop ++ ": \x7b\n\t$\x7b1\x7d\n\x7d"),
        insertTextFormat := some .snippetFormat, detail := some "Данные запроса (body)",
        filterText := none, textEdit := none }
    else if prop = "success" ∨ prop = "error" ∨ prop = "complete" then
      { label := prop, kind := .snippet,
        insertText := some (prop ++ ": ($\x7b1\x7d) => \x7b\n\t$\x7b0\x7d\n\x7d"),
        insertTextFormat := some .snippetFormat, detail := some (prop ++ " колбэк"),
        filterText := none, textEdit := none }
    else
      { label := prop, kind := .property, insertText := some (prop ++ ": $\x7b1\x7d"),
        insertTextFormat := some .snippetFormat, detail := none,
        filterText := none, textEdit := none })

/-- Embedding of `AjaxFeature.provideCompletionItems`
(src/server/src/features/ajaxFeature.ts): `props` with `cs`/`ce` are the
properties and source offsets of the configuration object literal. The property
loop returns at the first property whose branch returns; otherwise, with the
cursor inside the span of the object, the property-name rule answers; otherwise
the initial empty `completions` array is returned. -/
def ajaxProvideCompletionItems (props : List ObjProp) (cs ce : Nat)
    (pos : Position) (doc : TextDocument) : List CompletionItem :=
  let offset := doc.offsetAt pos
  let scanned := scanUrlType props
  match props.findSome? (stepCompletion doc pos offset scanned.1 scanned.2) with
  | some r => r
  | none =>
    let configObjectStart := doc.offsetAt (doc.positionAt cs)
    let configObjectEnd := doc.offsetAt (doc.positionAt ce)
    if configObjectStart < offset ∧ offset < configObjectEnd then propNameCompletions props
    else []

/-! ## Claim-side definitions

The definitions below do not transcribe repository code; each follows the
wording of one claim (or of the specification sentence behind it) so that the
claim can be compared against the transcribed code. -/

/-- Claim-side reading of C1: strip leading and trailing slashes (only). -/
def stripSlashes (l : List Char) : List Char :=
  ((l.dropWhile (fun c => c == '/')).reverse.dropWhile (fun c => c == '/')).reverse

/-- Claim-side segmentation of C1: strip leading/trailing slashes, then split
on `/` — interior empty segments survive, unlike `urlSegments`. -/
def specSegs (u : String) : List (List Char) :=
  splitSeg (stripSlashes u.data)

/-- Claim-side matching predicate of C1, literally as worded: equal segment
counts under `specSegs`, brace-wrapped template segments paired with nonempty
literal segments, all other segments equal byte for byte. -/
def claimSpecMatches (t u : String) : Bool :=
  let ts := specSegs t
  let us := specSegs u
  ts.length == us.length && matchParts ts us

/-- Relation between one template segment and one literal segment, as the
claims word it: a template segment wrapped in braces requires a nonempty
literal segment, any other template segment must be equal byte for byte. -/
def segCompatible (sp cp : List Char) : Prop :=
  if sp.head? = some '\x7b' ∧ sp.getLast? = some '\x7d' then cp ≠ [] else sp = cp

/-- Amended claim-side matching condition of C1: the segments of template and
literal (split on `/`, all empty segments discarded) correspond one to one
under `segCompatible` (which forces equal segment counts). -/
def specMatchCond (t u : String) : Prop :=
  List.Forall₂ segCompatible (urlSegments t) (urlSegments u)

/-- The literal `url` capture a property would contribute, as the code tests
it: a simple identifier-keyed assignment named `url` whose value is a string
literal. -/
def urlLitOf : ObjProp → Option (String × Nat × Nat)
  | .assign (.ident nm _ _) (.stringLit t s e) =>
    if nm = "url" then some (t, s, e) else none
  | _ => none

/-- The literal `type`/`method` capture a property would contribute. -/
def typeLitOf : ObjProp → Option (String × Nat × Nat)
  | .assign (.ident nm _ _) (.stringLit t s e) =>
    if nm = "type" ∨ nm = "method" then some (t, s, e) else none
  | _ => none

/-- The `data` object-literal capture a property would contribute. -/
def dataLitOf : ObjProp → Option (List ObjProp × Nat × Nat)
  | .assign (.ident nm _ _) (.objectLit dprops s e) =>
    if nm = "data" then some (dprops, s, e) else none
  | _ => none

/-- Keys of the simple identifier-keyed property assignments of a property
list, in order. -/
def identAssignNames (props : List ObjProp) : List String :=
  props.filterMap (fun p =>
    match p with
    | .assign (.ident nm _ _) _ => some nm
    | _ => none)

/-- Claim-side description of the duplicate-key scan, generalized by the list
`seen` of names encountered before the scan: a property contributes exactly
one duplicate Error at its key range when it is a simple identifier-keyed
assignment whose key occurs in `seen` or among the keys of the earlier simple
identifier-keyed assignments, and contributes nothing otherwise. -/
def dupDiagsSpecFrom (doc : TextDocument) (seen : List String) : List ObjProp → List Diagnostic
  | [] => []
  | p :: rest =>
    (match p with
     | .assign (.ident nm ns ne) _ =>
       if seen.contains nm then [dupDiag doc nm ns ne] else []
     | _ => [])
      ++ dupDiagsSpecFrom doc (seen ++ identAssignNames [p]) rest

/-- Claim-side description of the duplicate-key scan of C3: each simple
identifier-keyed assignment whose key equals the key of an earlier one yields
exactly one duplicate Error at its own key range. -/
def dupDiagsSpec (doc : TextDocument) (props : List ObjProp) : List Diagnostic :=
  dupDiagsSpecFrom doc [] props

/-- A concrete text document for witnesses and counterexamples: one line,
position `character` = offset. -/
def trivDoc : TextDocument :=
  { positionAt := fun o => { line := 0, character := o },
    offsetAt := fun p => p.character,
    getTextInRange := fun _ _ => "",
    roundtrip := fun _ => rfl }

/-- Concrete configuration for the C2 counterexample:
`{ type: "GET", type: "POST" }` — a duplicate key and no `url` property. -/
def c2config : List ObjProp :=
  [.assign (.ident "type" 10 14) (.stringLit "GET" 16 21),
   .assign (.ident "type" 23 27) (.stringLit "POST" 29 35)]

/-- Concrete configuration for the C3 counterexample:
`{ url: "/api/users", url: "/api/unknown" }` — the first-seen `url` value is
in the route table, the last-seen one is not. -/
def c3config : List ObjProp :=
  [.assign (.ident "url" 2 5) (.stringLit "/api/users" 7 19),
   .assign (.ident "url" 21 24) (.stringLit "/api/unknown" 26 40)]

/-- Concrete configuration for the C5 counterexample:
`{ type: "GET" }` with the cursor inside the string literal (offset 18) and
no `url` property. -/
def c5config : List ObjProp :=
  [.assign (.ident "type" 10 14) (.stringLit "GET" 16 21)]

/-- Concrete configuration for the C5 witness:
`{ url: "/api/users", type: "" }` with the cursor inside the second string
literal (offset 28). -/
def c5wconfig : List ObjProp :=
  [.assign (.ident "url" 2 5) (.stringLit "/api/users" 7 19),
   .assign (.ident "type" 21 25) (.stringLit "" 27 29)]

/-- Concrete configuration for the C6 witness (spec scenario C):
`{ url: "/api/users", type: "POST", data: { age: 30 } }` — the schema
requires `username` and `email`, both absent. -/
def c6data : List ObjProp :=
  [.assign (.ident "age" 43 46) (.numericLit "30" 48 50)]

/-- The C6 witness configuration; the `data` object literal spans offsets
41-52. -/
def c6config : List ObjProp :=
  [.assign (.ident "url" 2 5) (.stringLit "/api/users" 7 19),
   .assign (.ident "type" 21 25) (.stringLit "POST" 27 33),
   .assign (.ident "data" 35 39) (.objectLit c6data 41 52)]

/-- Concrete configuration for the C7 witness (spec scenario D):
`{ url: "" }` with the cursor between the quotes (offset 8). -/
def c7config : List ObjProp :=
  [.assign (.ident "url" 2 5) (.stringLit "" 7 9)]

/-- Schema property list for the C4 witness: a single `integer` field. -/
def c4schemaProps : List (String × SwaggerSchema) :=
  [("age", .mk "integer" none none none (some "30") (some "User age"))]

/-! ## Helper lemmas -/

/-- Appending character lists is appending strings. -/
theorem strData_append (a b : String) : (a ++ b).data = a.data ++ b.data := rfl

/-- A split never produces the empty list of segments. -/
theorem splitSeg_ne_nil (cs : List Char) : splitSeg cs ≠ [] := by
  induction cs with
  | nil => simp [splitSeg]
  | cons c cs ih =>
    simp only [splitSeg]
    split
    · simp
    · split <;> simp

/-- Appending a final slash appends one empty segment to the split. -/
theorem splitSeg_concat_slash (cs : List Char) :
    splitSeg (cs ++ ['/']) = splitSeg cs ++ [[]] := by
  induction cs with
  | nil => rfl
  | cons c cs ih =>
    by_cases h : c = '/'
    · subst h
      simp [splitSeg, ih]
    · simp only [List.cons_append, splitSeg, if_neg h]
      have ih2 : splitSeg (cs.append ['/']) = splitSeg cs ++ [[]] := ih
      rw [ih2]
      rcases hne : splitSeg cs with _ | ⟨s, rest⟩
      · exact absurd hne (splitSeg_ne_nil cs)
      · simp

/-- The nonempty segments of a URL do not change when a trailing slash is
appended. -/
theorem urlSegments_slash (u : String) : urlSegments (u ++ "/") = urlSegments u := by
  unfold urlSegments
  rw [show (u ++ "/").data = u.data ++ ['/'] from rfl, splitSeg_concat_slash,
    List.filter_append]
  simp

/-- List.find? returns `some x` exactly when `x` is the first element
satisfying the predicate. -/
theorem find_first_iff {α : Type} (p : α → Bool) (l : List α) (x : α) :
    l.find? p = some x ↔
      ∃ l₁ l₂, l = l₁ ++ x :: l₂ ∧ p x = true ∧ ∀ y ∈ l₁, p y = false := by
  induction l with
  | nil =>
    simp only [List.find?_nil]
    constructor
    · intro h; cases h
    · rintro ⟨l₁, l₂, h, -, -⟩
      exact absurd h.symm (List.append_ne_nil_of_right_ne_nil l₁ (List.cons_ne_nil x l₂))
  | cons a l ih =>
    rw [List.find?_cons]
    cases hpa : p a with
    | true =>
      simp only
      constructor
      · intro h
        injection h with h
        subst h
        exact ⟨[], l, rfl, hpa, by simp⟩
      · rintro ⟨l₁, l₂, heq, hx, hfirst⟩
        cases l₁ with
        | nil =>
          injection heq with h1 h2
          subst h1
          rfl
        | cons b l₁ =>
          injection heq with h1 h2
          subst h1
          have := hfirst a (by simp)
          rw [hpa] at this
          cases this
    | false =>
      simp only
      rw [ih]
      constructor
      · rintro ⟨l₁, l₂, rfl, hx, hfirst⟩
        refine ⟨a :: l₁, l₂, rfl, hx, ?_⟩
        intro y hy
        rcases List.mem_cons.mp hy with rfl | hy
        · exact hpa
        · exact hfirst y hy
      · rintro ⟨l₁, l₂, heq, hx, hfirst⟩
        cases l₁ with
        | nil =>
          injection heq with h1 h2
          subst h1
          rw [hpa] at hx
          cases hx
        | cons b l₁ =>
          injection heq with h1 h2
          exact ⟨l₁, l₂, h2, hx, fun y hy => hfirst y (by simp [hy])⟩

/-- The boolean segment loop agrees with the claim-side relation. -/
theorem matchParts_iff (sps cps : List (List Char)) :
    matchParts sps cps = true ↔ List.Forall₂ segCompatible sps cps := by
  induction sps generalizing cps with
  | nil => cases cps <;> simp [matchParts]
  | cons sp sps ih =>
    cases cps with
    | nil => simp [matchParts]
    | cons cp cps =>
      simp only [matchParts, Bool.and_eq_true, List.forall₂_cons, ih, segCompatible]
      constructor
      · rintro ⟨h1, h2⟩
        refine ⟨?_, h2⟩
        split at h1 <;> split
        · simpa [List.isEmpty_iff] using h1
        · simp_all
        · simp_all
        · simpa using h1
      · rintro ⟨h1, h2⟩
        refine ⟨?_, h2⟩
        split at h1 <;> split
        · simpa [List.isEmpty_iff] using h1
        · simp_all
        · simp_all
        · simpa using h1

/-- The predicate the matcher hands to `find?`, as a named function (the body
of the loop over the route table). -/
def templateAccepts (u t : String) : Bool :=
  (urlSegments t).length == (urlSegments u).length
    && matchParts (urlSegments t) (urlSegments u)

/-- The find? predicate of the matcher agrees with the claim-side condition
(the redundant length test is absorbed by `Forall₂`). -/
theorem templateAccepts_iff (u t : String) :
    templateAccepts u t = true ↔ specMatchCond t u := by
  rw [templateAccepts, Bool.and_eq_true, matchParts_iff]
  unfold specMatchCond
  constructor
  · exact fun h => h.2
  · exact fun h => ⟨by simpa using h.length_eq, h⟩

/-! ## Claim C8 -/

/-- Claim C8 (confirmed): for every URL string `u`, `getMatchingSwaggerUrl`
returns the same result for `u` and for `u` with a trailing slash appended;
trailing-slash presence never changes the matching outcome. -/
theorem claim_c8_trailing_slash (u : String) :
    getMatchingSwaggerUrl (u ++ "/") = getMatchingSwaggerUrl u := by
  unfold getMatchingSwaggerUrl
  rw [urlSegments_slash]

/-! ## Claim C1 -/

/-- Claim C1, counterexample: as worded — with segments obtained by stripping
leading/trailing slashes and splitting on `/` — no route-table key qualifies
for the literal URL `/api//users` (its interior empty segment survives that
segmentation), yet `getMatchingSwaggerUrl` returns `/api/users`, because the
code discards every empty segment, not only leading/trailing ones. -/
theorem claim_c1_counterexample :
    getMatchingSwaggerUrl "/api//users" = some "/api/users"
    ∧ mockSwaggerUrls.find? (fun t => claimSpecMatches t "/api//users") = none := by
  decide

/-- Claim C1 as amended (the segmentation is split on `/` discarding all
empty segments): `getMatchingSwaggerUrl u` returns `t` exactly when `t` is a
route-table key satisfying the segment conditions and every earlier key in
table iteration order fails them, and returns `undefined` exactly when no key
satisfies them. -/
theorem claim_c1_matcher_correct (u t : String) :
    (getMatchingSwaggerUrl u = some t ↔
      ∃ l₁ l₂, mockSwaggerUrls = l₁ ++ t :: l₂ ∧ specMatchCond t u
        ∧ ∀ t2 ∈ l₁, ¬ specMatchCond t2 u)
    ∧ (getMatchingSwaggerUrl u = none ↔ ∀ t2 ∈ mockSwaggerUrls, ¬ specMatchCond t2 u) := by
  have hfind : getMatchingSwaggerUrl u = mockSwaggerUrls.find? (templateAccepts u) := rfl
  constructor
  · rw [hfind, find_first_iff]
    constructor
    · rintro ⟨l₁, l₂, heq, hx, hfirst⟩
      refine ⟨l₁, l₂, heq, (templateAccepts_iff u t).mp hx, fun t2 ht2 hc => ?_⟩
      have h2 := hfirst t2 ht2
      rw [(templateAccepts_iff u t2).mpr hc] at h2
      cases h2
    · rintro ⟨l₁, l₂, heq, hx, hfirst⟩
      refine ⟨l₁, l₂, heq, (templateAccepts_iff u t).mpr hx, fun t2 ht2 => ?_⟩
      have h2 := hfirst t2 ht2
      exact Bool.eq_false_iff.mpr (fun hc => h2 ((templateAccepts_iff u t2).mp hc))
  · rw [hfind, List.find?_eq_none]
    constructor
    · intro h t2 ht2 hc
      exact h t2 ht2 ((templateAccepts_iff u t2).mpr hc)
    · intro h t2 ht2 hc
      exact h t2 ht2 ((templateAccepts_iff u t2).mp hc)


/-! ## Scan lemmas (shared by claims C2, C3, C6) -/

/-- Consing onto a list makes its last element the last element of the tail
when there is one. -/
theorem getLast?_cons_or {α : Type} (a : α) (l : List α) :
    (a :: l).getLast? = (l.getLast?).or (some a) := by
  induction l generalizing a with
  | nil => rfl
  | cons b l ih =>
    rw [List.getLast?_cons_cons, ih]
    cases l.getLast? <;> rfl

/-- A filterMap of a function that yields nothing on every element is empty. -/
theorem filterMap_nil_of_none {α β : Type} (f : α → Option β) :
    ∀ l : List α, (∀ a ∈ l, f a = none) → l.filterMap f = []
  | [], _ => rfl
  | a :: l, h => by
    rw [List.filterMap_cons, h a (by simp)]
    exact filterMap_nil_of_none f l (fun q hq => h q (by simp [hq]))

/-- One scan step captures `urlNode` exactly as `urlLitOf` describes,
overwriting the previous capture. -/
theorem scanStep_urlLit (doc : TextDocument) (st : ScanState) (p : ObjProp) :
    (scanStep doc st p).urlLit = (urlLitOf p).or st.urlLit := by
  cases p with
  | nonAssign s e => simp [scanStep, urlLitOf]
  | assign nm v =>
    cases nm with
    | litName t s e => simp [scanStep, urlLitOf]
    | computedName s e => simp [scanStep, urlLitOf]
    | ident nm ns ne =>
      cases v <;> simp [scanStep, urlLitOf] <;> split_ifs <;> simp_all

/-- One scan step captures `typeNode` exactly as `typeLitOf` describes. -/
theorem scanStep_typeLit (doc : TextDocument) (st : ScanState) (p : ObjProp) :
    (scanStep doc st p).typeLit = (typeLitOf p).or st.typeLit := by
  cases p with
  | nonAssign s e => simp [scanStep, typeLitOf]
  | assign nm v =>
    cases nm with
    | litName t s e => simp [scanStep, typeLitOf]
    | computedName s e => simp [scanStep, typeLitOf]
    | ident nm ns ne =>
      cases v <;> simp [scanStep, typeLitOf] <;> split_ifs <;> simp_all

/-- One scan step captures `dataNode` exactly as `dataLitOf` describes. -/
theorem scanStep_dataLit (doc : TextDocument) (st : ScanState) (p : ObjProp) :
    (scanStep doc st p).dataLit = (dataLitOf p).or st.dataLit := by
  cases p with
  | nonAssign s e => simp [scanStep, dataLitOf]
  | assign nm v =>
    cases nm with
    | litName t s e => simp [scanStep, dataLitOf]
    | computedName s e => simp [scanStep, dataLitOf]
    | ident nm ns ne =>
      cases v <;> simp [scanStep, dataLitOf] <;> split_ifs <;> simp_all

/-- One scan step appends exactly the key of a simple identifier-keyed
assignment to `encounteredProps`. -/
theorem scanStep_encountered (doc : TextDocument) (st : ScanState) (p : ObjProp) :
    (scanStep doc st p).encountered = st.encountered ++ identAssignNames [p] := by
  cases p with
  | nonAssign s e => simp [scanStep, identAssignNames]
  | assign nm v =>
    cases nm with
    | litName t s e => simp [scanStep, identAssignNames]
    | computedName s e => simp [scanStep, identAssignNames]
    | ident nm ns ne =>
      cases v <;> simp [scanStep, identAssignNames] <;> split_ifs <;> rfl

/-- One scan step pushes exactly one duplicate Error at the key range when
the key of a simple identifier-keyed assignment was already encountered, and
nothing otherwise. -/
theorem scanStep_diags (doc : TextDocument) (st : ScanState) (p : ObjProp) :
    (scanStep doc st p).diags = st.diags
      ++ (match p with
          | .assign (.ident nm ns ne) _ =>
            if st.encountered.contains nm then [dupDiag doc nm ns ne] else []
          | _ => []) := by
  cases p with
  | nonAssign s e => simp [scanStep]
  | assign nm v =>
    cases nm with
    | litName t s e => simp [scanStep]
    | computedName s e => simp [scanStep]
    | ident nm ns ne =>
      cases v <;> simp [scanStep] <;> split_ifs <;> rfl

/-- Last-seen `url` capture of the whole scan. -/
theorem scanProps_urlLit (doc : TextDocument) (props : List ObjProp) : ∀ st : ScanState,
    (scanProps doc props st).urlLit = ((props.filterMap urlLitOf).getLast?).or st.urlLit := by
  induction props with
  | nil => intro st; rfl
  | cons p props ih =>
    intro st
    show (scanProps doc props (scanStep doc st p)).urlLit = _
    rw [ih, scanStep_urlLit, List.filterMap_cons]
    cases hu : urlLitOf p with
    | none => simp
    | some x =>
      rw [getLast?_cons_or, Option.or_assoc]

/-- Last-seen `type`/`method` capture of the whole scan. -/
theorem scanProps_typeLit (doc : TextDocument) (props : List ObjProp) : ∀ st : ScanState,
    (scanProps doc props st).typeLit = ((props.filterMap typeLitOf).getLast?).or st.typeLit := by
  induction props with
  | nil => intro st; rfl
  | cons p props ih =>
    intro st
    show (scanProps doc props (scanStep doc st p)).typeLit = _
    rw [ih, scanStep_typeLit, List.filterMap_cons]
    cases hu : typeLitOf p with
    | none => simp
    | some x =>
      rw [getLast?_cons_or, Option.or_assoc]

/-- Last-seen `data` capture of the whole scan. -/
theorem scanProps_dataLit (doc : TextDocument) (props : List ObjProp) : ∀ st : ScanState,
    (scanProps doc props st).dataLit = ((props.filterMap dataLitOf).getLast?).or st.dataLit := by
  induction props with
  | nil => intro st; rfl
  | cons p props ih =>
    intro st
    show (scanProps doc props (scanStep doc st p)).dataLit = _
    rw [ih, scanStep_dataLit, List.filterMap_cons]
    cases hu : dataLitOf p with
    | none => simp
    | some x =>
      rw [getLast?_cons_or, Option.or_assoc]

/-- Unfolding of the claim-side duplicate description at a cons. -/
theorem dupDiagsSpecFrom_cons (doc : TextDocument) (seen : List String) (p : ObjProp)
    (rest : List ObjProp) :
    dupDiagsSpecFrom doc seen (p :: rest)
      = (match p with
         | .assign (.ident nm ns ne) _ =>
           if seen.contains nm then [dupDiag doc nm ns ne] else []
         | _ => [])
        ++ dupDiagsSpecFrom doc (seen ++ identAssignNames [p]) rest := by
  cases p with
  | assign nm v => cases nm <;> rfl
  | nonAssign s e => rfl

/-- The diagnostics pushed by the whole scan are exactly the claim-side
duplicate Errors, relative to the names already encountered. -/
theorem scanProps_diags (doc : TextDocument) (props : List ObjProp) : ∀ st : ScanState,
    (scanProps doc props st).diags = st.diags ++ dupDiagsSpecFrom doc st.encountered props := by
  induction props with
  | nil => intro st; simp [scanProps, dupDiagsSpecFrom]
  | cons p props ih =>
    intro st
    show (scanProps doc props (scanStep doc st p)).diags = _
    rw [ih, scanStep_diags, scanStep_encountered, dupDiagsSpecFrom_cons, List.append_assoc]

/-- Every diagnostic of the claim-side duplicate description is a duplicate
Error. -/
theorem mem_dupDiagsSpecFrom (doc : TextDocument) :
    ∀ (props : List ObjProp) (seen : List String) (d : Diagnostic),
      d ∈ dupDiagsSpecFrom doc seen props → ∃ nm ns ne, d = dupDiag doc nm ns ne
  | [], seen, d, h => absurd h (by simp [dupDiagsSpecFrom])
  | p :: rest, seen, d, h => by
    rw [dupDiagsSpecFrom_cons] at h
    rcases List.mem_append.mp h with h1 | h2
    · cases p with
      | nonAssign s e => simp at h1
      | assign nm v =>
        cases nm with
        | ident nm ns ne =>
          simp at h1
          exact ⟨nm, ns, ne, h1.2⟩
        | litName t s e => simp at h1
        | computedName s e => simp at h1
    · exact mem_dupDiagsSpecFrom doc rest (seen ++ identAssignNames [p]) d h2

/-! ## Claim C9 -/

/-- Claim C9 (confirmed): for every configuration object and document, the
two duplicated diagnostic implementations — `AjaxFeature.provideDiagnostics`
and the standalone handler `processAjaxConfigForDiagnostics` — append exactly
the same sequence of diagnostics (same severities, ranges, messages and
sources). -/
theorem claim_c9_engines_agree (props : List ObjProp) (doc : TextDocument) :
    ajaxProvideDiagnostics props doc = processAjaxConfigForDiagnostics props doc := rfl

/-! ## Claim C3 -/

/-- Claim C3, counterexample to first-seen-wins: on
`{ url: "/api/users", url: "/api/unknown" }` the first-seen literal is
`/api/users`, which is a route-table key, yet the scan keeps the last-seen
literal `/api/unknown` and validation reports it as an unknown URL — under
first-seen-wins no unknown-URL Error could be emitted. -/
theorem claim_c3_counterexample :
    (c3config.filterMap urlLitOf).head? = some ("/api/users", 7, 19)
    ∧ getMatchingSwaggerUrl "/api/users" = some "/api/users"
    ∧ (scanProps trivDoc c3config initScan).urlLit = some ("/api/unknown", 26, 40)
    ∧ processAjaxConfigForDiagnostics c3config trivDoc
        = [dupDiag trivDoc "url" 21 24, unknownUrlDiag trivDoc "/api/unknown" 26 40] := by
  refine ⟨rfl, by decide, rfl, by decide⟩

/-- Claim C3 as amended (last-seen-wins): every repeated simple
identifier-keyed key yields exactly one duplicate Error at its key range
(`dupDiagsSpec`), these Errors open the output, and the values used by the
subsequent validation steps for `url`, `type`/`method` and `data` are the
last-seen recognized literals. -/
theorem claim_c3_scan_semantics (props : List ObjProp) (doc : TextDocument) :
    processAjaxConfigForDiagnostics props doc
      = dupDiagsSpec doc props ++ validateConfig doc (scanProps doc props initScan)
    ∧ (scanProps doc props initScan).diags = dupDiagsSpec doc props
    ∧ (scanProps doc props initScan).urlLit = (props.filterMap urlLitOf).getLast?
    ∧ (scanProps doc props initScan).typeLit = (props.filterMap typeLitOf).getLast?
    ∧ (scanProps doc props initScan).dataLit = (props.filterMap dataLitOf).getLast? := by
  have hd : (scanProps doc props initScan).diags = dupDiagsSpec doc props := by
    rw [scanProps_diags]
    rfl
  refine ⟨?_, hd, ?_, ?_, ?_⟩
  · rw [processAjaxConfigForDiagnostics, hd]
  · rw [scanProps_urlLit]
    cases (props.filterMap urlLitOf).getLast? <;> rfl
  · rw [scanProps_typeLit]
    cases (props.filterMap typeLitOf).getLast? <;> rfl
  · rw [scanProps_dataLit]
    cases (props.filterMap dataLitOf).getLast? <;> rfl

/-! ## Claim C2 -/

/-- Claim C2, counterexample: the configuration `{ type: "GET", type: "POST" }`
has no `url` property at all, yet `provideDiagnostics` emits a diagnostic
(the duplicate-key Error). -/
theorem claim_c2_counterexample :
    (∀ p ∈ c2config, urlLitOf p = none)
    ∧ processAjaxConfigForDiagnostics c2config trivDoc ≠ [] := by
  decide

/-- Claim C2 as amended: when the configuration has no simple `url` property
with a string-literal value, the only diagnostics emitted are the
duplicate-property Errors of the key scan — none about URLs, verbs, or data
contents. -/
theorem claim_c2_only_duplicates (props : List ObjProp) (doc : TextDocument)
    (hnourl : ∀ p ∈ props, urlLitOf p = none) :
    processAjaxConfigForDiagnostics props doc = dupDiagsSpec doc props
    ∧ ∀ d ∈ dupDiagsSpec doc props, ∃ nm ns ne, d = dupDiag doc nm ns ne := by
  have hurl : (scanProps doc props initScan).urlLit = none := by
    rw [scanProps_urlLit, filterMap_nil_of_none urlLitOf props hnourl]
    rfl
  constructor
  · rw [processAjaxConfigForDiagnostics]
    show (scanProps doc props initScan).diags ++ validateConfig doc (scanProps doc props initScan) = _
    rw [validateConfig, hurl]
    rw [scanProps_diags]
    simp [dupDiagsSpec, initScan]
  · exact fun d hd => mem_dupDiagsSpecFrom doc props [] d hd

/-- Witness for C2: at the concrete duplicate-only configuration the output
is exactly the duplicate Errors of the scan. -/
theorem claim_c2_witness :
    processAjaxConfigForDiagnostics c2config trivDoc = dupDiagsSpec trivDoc c2config :=
  (claim_c2_only_duplicates c2config trivDoc (by decide)).1


/-! ## Claims C4 and C6 -/

/-- One guarded emission per element is a filter-then-map. -/
theorem flatMap_guard {α β : Type} (l : List α) (P : α → Bool) (f : α → β) :
    (l.flatMap (fun r => if ¬ P r then [f r] else [])) = (l.filter (fun r => ! P r)).map f := by
  induction l with
  | nil => rfl
  | cons a l ih => by_cases h : P a <;> simp [h] <;> simpa using ih

/-- A successful association-list lookup means the key list contains the key. -/
theorem contains_of_lookup {β : Type} (nm : String) (l : List (String × β)) (b : β)
    (h : List.lookup nm l = some b) : (l.map Prod.fst).contains nm = true := by
  induction l with
  | nil => cases h
  | cons kv l ih =>
    cases kv with
    | mk k b2 =>
      cases hk : nm == k with
      | true =>
        have hkeq : nm = k := eq_of_beq hk
        subst hkeq
        simp
      | false =>
        simp only [List.lookup, hk] at h
        simp only [List.map_cons, List.contains_cons, ih h, Bool.or_true]

/-- Claim C4 (confirmed): for a data property whose name is declared in the
matched body schema (so the lookup succeeds, with the declared type one of
the six schema type tags), a type-mismatch Warning at the value range is
emitted exactly when the inferred type is defined and differs from the
declared type, except that declared `integer` with inferred `number` is never
flagged; `getNodeType` defines the inference (string literal → string,
numeric literal with/without a decimal point → number/integer, true/false →
boolean, array/object literal → array/object, anything else → no type). -/
theorem claim_c4_type_mismatch (doc : TextDocument)
    (schemaProps : List (String × SwaggerSchema))
    (nm : String) (ns ne : Nat) (v : Expr) (sp : SwaggerSchema)
    (hlook : List.lookup nm schemaProps = some sp)
    (henum : sp.type ∈ ["string", "number", "integer", "boolean", "array", "object"]) :
    checkFieldDiags doc schemaProps (.assign (.ident nm ns ne) v)
      = match getNodeType v with
        | none => []
        | some propType =>
          if sp.type ≠ propType ∧ ¬ (sp.type = "integer" ∧ propType = "number") then
            [mismatchDiag doc sp.type propType nm (exprStart v) (exprStop v)]
          else [] := by
  have hcont := contains_of_lookup nm schemaProps sp hlook
  have hne : sp.type ≠ "" := by
    simp only [List.mem_cons, List.not_mem_nil, or_false] at henum
    rcases henum with h | h | h | h | h | h <;> simp [h]
  simp only [checkFieldDiags, hcont, hlook]
  cases hnt : getNodeType v with
  | none => simp
  | some propType => simp [hne]

/-- Witness for C4, the boundary of the claim: on an `integer`-typed schema
field, both the literal `30.5` (inferred `number`, exempted) and the literal
`30` (inferred `integer`, equal) produce no warning. -/
theorem claim_c4_witness :
    checkFieldDiags trivDoc c4schemaProps
        (.assign (.ident "age" 43 46) (.numericLit "30.5" 48 52)) = []
    ∧ checkFieldDiags trivDoc c4schemaProps
        (.assign (.ident "age" 43 46) (.numericLit "30" 48 50)) = [] :=
  ⟨(claim_c4_type_mismatch trivDoc c4schemaProps "age" 43 46 (.numericLit "30.5" 48 52)
      (.mk "integer" none none none (some "30") (some "User age")) rfl (by decide)).trans
    (by decide),
   (claim_c4_type_mismatch trivDoc c4schemaProps "age" 43 46 (.numericLit "30" 48 50)
      (.mk "integer" none none none (some "30") (some "User age")) rfl (by decide)).trans
    (by decide)⟩

/-- Claim C6 (confirmed): when the literal url matched a template, the
literal verb is a defined method among post/put/patch, and a data object
literal is present (with the verb carrying a body parameter whose schema has
properties), the output consists of the scan diagnostics, then exactly one
`missingFieldDiag` — an Error anchored to the full source range `ds`..`de` of
the data object literal — per required name not among the data property
names, then the per-field diagnostics. -/
theorem claim_c6_missing_required (props : List ObjProp) (doc : TextDocument)
    (u : String) (us ue : Nat) (m ty : String) (ts0 te0 : Nat)
    (meth : SwaggerMethod) (dprops : List ObjProp) (ds de : Nat)
    (bp : SwaggerParameter) (sch : SwaggerSchema) (schemaProps : List (String × SwaggerSchema))
    (hurl : (scanProps doc props initScan).urlLit = some (u, us, ue))
    (hmatch : getMatchingSwaggerUrl u = some m)
    (hty : (scanProps doc props initScan).typeLit = some (ty, ts0, te0))
    (hlook : pathLookup m (strToLower ty) = some meth)
    (hverb : ["post", "put", "patch"].contains (strToLower ty) = true)
    (hdata : (scanProps doc props initScan).dataLit = some (dprops, ds, de))
    (hbody : bodyParamOf meth = some bp)
    (hsch : bp.schema = some sch)
    (hprops : sch.properties = some schemaProps) :
    processAjaxConfigForDiagnostics props doc
      = (scanProps doc props initScan).diags
        ++ ((sch.required.getD []).filter
              (fun r => ! (dataPropTexts dprops).contains (some r))).map
             (fun r => missingFieldDiag doc r ds de)
        ++ dprops.flatMap (checkFieldDiags doc schemaProps) := by
  rw [processAjaxConfigForDiagnostics]
  show (scanProps doc props initScan).diags ++ validateConfig doc (scanProps doc props initScan) = _
  rw [validateConfig, hurl]
  simp only [hmatch, hty, hlook, hverb, hdata, if_true]
  simp only [dataDiags, hbody, hsch, hprops]
  rw [flatMap_guard (sch.required.getD []) (fun r => (dataPropTexts dprops).contains (some r))
    (fun r => missingFieldDiag doc r ds de)]
  rw [List.append_assoc]

/-- Witness for C6 (spec scenario C): `{ url: "/api/users", type: "POST",
data: { age: 30 } }` yields exactly two missing-required-field Errors, one
per absent required name, both anchored to the data node range 41..52. -/
theorem claim_c6_witness :
    processAjaxConfigForDiagnostics c6config trivDoc
      = [missingFieldDiag trivDoc "username" 41 52, missingFieldDiag trivDoc "email" 41 52] :=
  (claim_c6_missing_required c6config trivDoc "/api/users" 7 19 "/api/users" "POST" 27 33
      _ c6data 41 52 _ _ _ rfl (by decide) rfl rfl (by decide) rfl rfl rfl rfl).trans
    (by decide)


/-! ## Claims C7 and C5 -/

/-- A findSome? skips a prefix on which the function yields nothing. -/
theorem findSome_append_none {α β : Type} (f : α → Option β) (l₁ l₂ : List α)
    (h : ∀ a ∈ l₁, f a = none) : (l₁ ++ l₂).findSome? f = l₂.findSome? f := by
  induction l₁ with
  | nil => rfl
  | cons a l ih =>
    rw [List.cons_append, List.findSome?_cons, h a (by simp)]
    exact ih (fun q hq => h q (by simp [hq]))

/-- Claim C7 (confirmed): with the cursor strictly inside the string-literal
value of a `url` property (after the opening quote, at most at the token end)
— and no earlier property triggering its own completion branch —
`provideCompletionItems` returns exactly one item per route-table key, whose
label, insert text and filter text are the template string verbatim, with no
snippet insert format (hence no snippet placeholders). -/
theorem claim_c7_url_value_completions (pre suf props : List ObjProp) (s : String)
    (ns ne vs ve cs ce : Nat) (pos : Position) (doc : TextDocument)
    (hprops : props = pre ++ .assign (.ident "url" ns ne) (.stringLit s vs ve) :: suf)
    (hpre : ∀ q ∈ pre,
      stepCompletion doc pos (doc.offsetAt pos) (scanUrlType props).1 (scanUrlType props).2 q = none)
    (hgt : vs < doc.offsetAt pos) (hle : doc.offsetAt pos ≤ ve) :
    ajaxProvideCompletionItems props cs ce pos doc
      = mockSwaggerUrls.map (fun url =>
          { label := url, kind := CIKind.value, insertText := some url,
            insertTextFormat := none, filterText := some url,
            detail := none, textEdit := none }) := by
  subst hprops
  simp only [ajaxProvideCompletionItems]
  rw [findSome_append_none _ _ _ hpre, List.findSome?_cons]
  have hstep : stepCompletion doc pos (doc.offsetAt pos)
      (scanUrlType (pre ++ ObjProp.assign (PropName.ident "url" ns ne)
        (Expr.stringLit s vs ve) :: suf)).1
      (scanUrlType (pre ++ ObjProp.assign (PropName.ident "url" ns ne)
        (Expr.stringLit s vs ve) :: suf)).2
      (ObjProp.assign (PropName.ident "url" ns ne) (Expr.stringLit s vs ve))
      = some (mockSwaggerUrls.map mkUrlItem) := by
    simp [stepCompletion, doc.roundtrip, hgt, hle]
  simp only [hstep]
  rfl

/-- Witness for C7 (spec scenario D): cursor between the quotes of
`url: ""` in `{ url: "" }` yields exactly the route-table keys as plain
items. -/
theorem claim_c7_witness :
    ajaxProvideCompletionItems c7config 0 11 { line := 0, character := 8 } trivDoc
      = mockSwaggerUrls.map mkUrlItem :=
  (claim_c7_url_value_completions [] [] c7config "" 2 5 7 9 0 11
    { line := 0, character := 8 } trivDoc rfl
    (fun q hq => absurd hq (List.not_mem_nil q)) (by decide) (by decide)).trans rfl

/-- Claim C5, counterexample to the terminal-empty-result reading: on
`{ type: "GET" }` with the cursor inside the string literal and no `url`
property, the verb-value branch does not return; control falls through to the
property-name rule, which returns six items — not the empty list. -/
theorem claim_c5_counterexample :
    (scanUrlType c5config).1 = none
    ∧ (ajaxProvideCompletionItems c5config 8 25 { line := 0, character := 18 } trivDoc).map
        (fun item => item.label)
        = ["url", "method", "data", "success", "error", "complete"] := by
  constructor
  · rfl
  · decide

/-- Claim C5 as amended: with the cursor strictly inside the string-literal
value of a `type`/`method` property (and no earlier property triggering):
when a literal `url` with nonempty text was scanned, the branch returns — one
upper-cased, de-duplicated item per non-`description` key of the matched
template (label = insert text), and the empty list when no template matches
(terminal); when no nonempty literal `url` was scanned, the branch does not
return, and (when no later property triggers and the cursor is inside the
configuration object span) the property-name rule answers instead. -/
theorem claim_c5_verb_value_completions (pre suf props : List ObjProp) (nmT s : String)
    (ns ne vs ve cs ce : Nat) (pos : Position) (doc : TextDocument)
    (hprops : props = pre ++ .assign (.ident nmT ns ne) (.stringLit s vs ve) :: suf)
    (hnm : nmT = "type" ∨ nmT = "method")
    (hgt : vs < doc.offsetAt pos) (hle : doc.offsetAt pos ≤ ve)
    (hpre : ∀ q ∈ pre,
      stepCompletion doc pos (doc.offsetAt pos) (scanUrlType props).1 (scanUrlType props).2 q = none) :
    (∀ u, (scanUrlType props).1 = some u → u ≠ "" →
      ajaxProvideCompletionItems props cs ce pos doc
        = (availableMethodsOf (getMatchingSwaggerUrl u)).map mkVerbItem)
    ∧ (truthyStr (scanUrlType props).1 = false →
       (∀ q ∈ suf,
         stepCompletion doc pos (doc.offsetAt pos) (scanUrlType props).1 (scanUrlType props).2 q = none) →
       cs < doc.offsetAt pos → doc.offsetAt pos < ce →
       ajaxProvideCompletionItems props cs ce pos doc = propNameCompletions props) := by
  subst hprops
  constructor
  · intro u hu hune
    simp only [ajaxProvideCompletionItems]
    rw [findSome_append_none _ _ _ hpre, List.findSome?_cons]
    have hstep : stepCompletion doc pos (doc.offsetAt pos)
        (scanUrlType (pre ++ ObjProp.assign (PropName.ident nmT ns ne)
          (Expr.stringLit s vs ve) :: suf)).1
        (scanUrlType (pre ++ ObjProp.assign (PropName.ident nmT ns ne)
          (Expr.stringLit s vs ve) :: suf)).2
        (ObjProp.assign (PropName.ident nmT ns ne) (Expr.stringLit s vs ve))
        = some ((availableMethodsOf (getMatchingSwaggerUrl u)).map mkVerbItem) := by
      rcases hnm with rfl | rfl <;>
        simp [stepCompletion, doc.roundtrip, hgt, hle, hu, truthyStr, hune]
    simp only [hstep]
  · intro hfalsy hsuf hclt hcgt
    simp only [ajaxProvideCompletionItems]
    rw [findSome_append_none _ _ _ hpre, List.findSome?_cons]
    have hstep : stepCompletion doc pos (doc.offsetAt pos)
        (scanUrlType (pre ++ ObjProp.assign (PropName.ident nmT ns ne)
          (Expr.stringLit s vs ve) :: suf)).1
        (scanUrlType (pre ++ ObjProp.assign (PropName.ident nmT ns ne)
          (Expr.stringLit s vs ve) :: suf)).2
        (ObjProp.assign (PropName.ident nmT ns ne) (Expr.stringLit s vs ve))
        = none := by
      rcases hnm with rfl | rfl <;>
        simp [stepCompletion, doc.roundtrip, hgt, hle, hfalsy]
    simp only [hstep]
    have hsufnone : suf.findSome? (stepCompletion doc pos (doc.offsetAt pos)
        (scanUrlType (pre ++ ObjProp.assign (PropName.ident nmT ns ne)
          (Expr.stringLit s vs ve) :: suf)).1
        (scanUrlType (pre ++ ObjProp.assign (PropName.ident nmT ns ne)
          (Expr.stringLit s vs ve) :: suf)).2) = none := by
      rw [List.findSome?_eq_none_iff]
      exact hsuf
    simp only [hsufnone]
    simp [doc.roundtrip, hclt, hcgt]

/-- Witness for C5: on `{ url: "/api/users", type: "" }` with the cursor
inside the verb string, the matched template `/api/users` offers exactly GET
and POST. -/
theorem claim_c5_witness :
    ajaxProvideCompletionItems c5wconfig 0 40 { line := 0, character := 28 } trivDoc
      = [mkVerbItem "GET", mkVerbItem "POST"] := by
  have h := (claim_c5_verb_value_completions
      [.assign (.ident "url" 2 5) (.stringLit "/api/users" 7 19)] []
      c5wconfig "type" "" 21 25 27 29 0 40 { line := 0, character := 28 } trivDoc rfl
      (Or.inl rfl) (by decide) (by decide)
      (by
        intro q hq
        rcases List.mem_singleton.mp hq with rfl
        decide)).1 "/api/users" rfl (by decide)
  exact h.trans (by decide)


/-! ## Claim C10 -/

/-- Prepending the empty string is the identity. -/
theorem str_empty_append (s : String) : "" ++ s = s := rfl

/-- Unfolding of the object-property loop at a cons: one entry — indent, the
quoted key, the rendered value, a `?` exactly when the key is not required,
and the separating `,\n` — followed by the rest of the loop with the counter
advanced. -/
theorem genProps_cons (key : String) (prop : SwaggerSchema)
    (rest : List (String × SwaggerSchema)) (req : Option (List String))
    (indent : String) (level i : Nat) :
    genProps ((key, prop) :: rest) req indent level i
      = indent ++ "  \"" ++ key ++ "\": " ++ propEntryValue prop indent level i
        ++ (if (req.getD []).contains key then "" else "?") ++ ",\n"
        ++ genProps rest req indent level (propCounterStep prop i) := by
  simp [genProps]

/-- The object-property loop splits over list append, threading the
placeholder counter through the prefix. -/
theorem genProps_append (l₁ l₂ : List (String × SwaggerSchema)) (req : Option (List String))
    (indent : String) (level : Nat) : ∀ i : Nat,
    genProps (l₁ ++ l₂) req indent level i
      = genProps l₁ req indent level i ++ genProps l₂ req indent level (counterAfter l₁ i) := by
  induction l₁ with
  | nil =>
    intro i
    simp [genProps, counterAfter, str_empty_append]
  | cons kp l₁ ih =>
    intro i
    cases kp with
    | mk key prop =>
      rw [List.cons_append, genProps_cons, genProps_cons, ih]
      have hca : counterAfter ((key, prop) :: l₁) i = counterAfter l₁ (propCounterStep prop i) := rfl
      rw [hca]
      simp [String.append_assoc]

/-- Claim C10 (confirmed): in every snippet `generateDataSnippet` produces
for an object schema, the entry of each property carries a literal `?`
appended immediately after its rendered value — before the separating comma —
exactly when the property is not listed in the schema required set, and no
`?` when it is; the first conjunct ties the object snippet to the loop output
(the final `,\n` of which is stripped), the second exhibits the entry of an
arbitrary property of the object. Completion insert texts for nested object
bodies embed this output verbatim (`dataCompletionItem`), so their optional
fields carry the `?` markers. -/
theorem claim_c10_optional_markers (ps₁ ps₂ : List (String × SwaggerSchema))
    (key : String) (prop : SwaggerSchema) (it : Option SwaggerSchema)
    (req : Option (List String)) (ex d : Option String)
    (level i : Nat) (b : Bool) (indent : String) :
    generateDataSnippet (.mk "object" (some (ps₁ ++ (key, prop) :: ps₂)) it req ex d) level b
      = stripTrailingComma
          ((if b then "\x7b\n" else "")
            ++ genProps (ps₁ ++ (key, prop) :: ps₂) req (strRepeat "  " level) level 1)
        ++ (if b then "\n" ++ strRepeat "  " (level - 1) ++ "\x7d" else "")
    ∧ genProps (ps₁ ++ (key, prop) :: ps₂) req indent level i
        = genProps ps₁ req indent level i
          ++ (indent ++ "  \"" ++ key ++ "\": ")
          ++ propEntryValue prop indent level (counterAfter ps₁ i)
          ++ (if (req.getD []).contains key then "" else "?") ++ ",\n"
          ++ genProps ps₂ req indent level (propCounterStep prop (counterAfter ps₁ i)) := by
  constructor
  · simp [generateDataSnippet]
  · rw [genProps_append, genProps_cons]
    simp [String.append_assoc]

end Ajax
